import Mathlib

/-!
Shallow embedding of the JaDoK card-game engine (src/webjadok.py) and proofs
about the claims of its specification.  Python lists become Lean `List`s,
integer fields become `Int`/`Nat`, and interactive decisions (the decision
provider) become explicit function or list parameters.  Mutation is modelled
by explicit state passing.
-/

namespace JaDoK

/-! ## Card damage model (`Card.take_damage`, `Card.destroy_card`)

`Card.take_damage` subtracts the damage from `damage_points` and, when the
result is `≤ 0`, calls `destroy_card`.  For the purposes of claim C1 we track
the mutable damage points together with the number of times `destroy_card`
has been invoked on the card. -/

structure CardDmg where
  damage_points : Int
  destroy_calls : Nat
deriving Repr, DecidableEq

/-- Embedding of `Card.take_damage` (webjadok.py lines 56-60): subtract, then
invoke the destruction routine whenever the new total is `≤ 0`. -/
def take_damage (c : CardDmg) (damage : Int) : CardDmg :=
  let dp := c.damage_points - damage
  if dp ≤ 0 then { damage_points := dp, destroy_calls := c.destroy_calls + 1 }
  else { damage_points := dp, destroy_calls := c.destroy_calls }

/-- A sequence of `take_damage` applications, in order. -/
def take_damage_seq (c : CardDmg) (ds : List Int) : CardDmg :=
  ds.foldl take_damage c

/-! ## Action Sequence Pile (`RoundManager.handle_asp_actions`, `resolve_asp`)

Placement appends `(player, card)` pairs to the list `self.asp`; resolution
pops from the end (`self.asp.pop()`) until the pile is empty.  The element
type is abstract: the pairs are opaque for the ordering claim. -/

/-- Embedding of the `while self.asp: self.asp.pop()` loop of
`RoundManager.resolve_asp` (webjadok.py lines 1096-1101).  The accumulator
collects the resolution order (most recent resolution at the head); the
function returns the resolution order together with the final pile. -/
def resolve_asp_loop (asp acc : List α) : List α × List α :=
  match hl : asp.getLast? with
  | none => (acc.reverse, asp)
  | some a => resolve_asp_loop asp.dropLast (a :: acc)
termination_by asp.length
decreasing_by
  have hne : asp ≠ [] := by
    intro he
    rw [he] at hl
    simp at hl
  have hpos : 0 < asp.length := List.length_pos.mpr hne
  simp only [List.length_dropLast]
  omega

/-- Resolution of a pile built by appending placements in order. -/
def resolve_asp (asp : List α) : List α × List α :=
  resolve_asp_loop asp []

/-! ## Player zones (`Player.discard_card`, `Player.place_card_in_wall`,
`Card.destroy_card`)

Cards are identified by a numeric id (Python compares card objects by
identity; distinct instances get distinct ids) plus the mutable face-down
flag used by the wall. -/

structure CardZ where
  id : Nat
  is_face_down : Bool
deriving Repr, DecidableEq

structure PlayerZones where
  hand : List CardZ
  wall : List CardZ
  battlement_zone : List CardZ
  field_zone : List CardZ
  discard_pile : List CardZ
deriving Repr, DecidableEq

/-- Number of references to `c` across all of a player's containers. -/
def PlayerZones.refCount (p : PlayerZones) (c : CardZ) : Nat :=
  p.hand.count c + p.wall.count c + p.battlement_zone.count c
    + p.field_zone.count c + p.discard_pile.count c

/-- Embedding of `Player.discard_card` (webjadok.py lines 132-144): if the
card is in the hand, remove that one occurrence and append it to the discard
pile (returning `true`); otherwise report an error (returning `false`) and
change nothing.  The Python method never raises. -/
def discard_card (p : PlayerZones) (card : CardZ) : PlayerZones × Bool :=
  if card ∈ p.hand then
    ({ p with hand := p.hand.erase card,
              discard_pile := p.discard_pile ++ [card] }, true)
  else (p, false)

/-- Embedding of `Player.place_card_in_wall` (webjadok.py lines 146-159):
append the card face-down when the wall has fewer than 14 cards, otherwise
append it to the discard pile. -/
def place_card_in_wall (p : PlayerZones) (card : CardZ) : PlayerZones :=
  if p.wall.length < 14 then
    { p with wall := p.wall ++ [{ card with is_face_down := true }] }
  else
    { p with discard_pile := p.discard_pile ++ [card] }

/-- Embedding of `Card.destroy_card` (webjadok.py lines 85-91): append the
card to its owner's discard pile, and remove it from the field zone when it
is there — no other zone is inspected. -/
def destroy_card (p : PlayerZones) (card : CardZ) : PlayerZones :=
  { p with discard_pile := p.discard_pile ++ [card],
           field_zone := if card ∈ p.field_zone then p.field_zone.erase card
                         else p.field_zone }

/-! ## Joker damage (`RoundManager.handle_joker_attack`,
`RoundManager.calculate_joker_damage`, `RoundManager.assign_damage_to_zone`)

Zones are lists of per-card values: for damage application, the card's
current damage points; for the bonus-damage query, the card's current action
points.  The interactive index and yes/no prompts become a choice function
and a list of answers (the loop in the source re-prompts until the index is
valid, so the chosen index is always reduced into range). -/

/-- Embedding of `RoundManager.calculate_joker_damage` (webjadok.py lines
1379-1385): base damage 2, and for each card of the acting player's field
zone the player is asked whether to remove an action point for one extra
damage; a yes answer decrements that card's action points (with no check
that they are positive) and adds 1.  Answers beyond the given list default
to no.  Returns the updated field-zone action points and the total. -/
def calculate_joker_damage : List Int → List Bool → List Int × Nat
  | [], _ => ([], 2)
  | c :: cs, ans =>
    let rest := calculate_joker_damage cs ans.tail
    if ans.headD false then ((c - 1) :: rest.1, rest.2 + 1)
    else (c :: rest.1, rest.2)

/-- Embedding of `RoundManager.assign_damage_to_zone` (webjadok.py lines
1387-1417).  The `while damage > 0 and zone:` loop's first statement
formats `zone.name` (line 1389) — but `zone` is always a plain Python list
(`opponent.field_zone`, `.wall`, `.battlement_zone`, created as `[]` in
`Player.__init__`), which has no `name` attribute — so the body raises
`AttributeError` (modelled as `Except.error ()`) as soon as the remaining
damage is positive and the zone is non-empty; the only handler in the loop
catches `ValueError` for the inner index prompt, never this.  The damage
code further down the body (pick a valid index, decrement that card's
damage points floored at 0, remove it at 0, decrement the damage) is
unreachable.  When the loop guard fails the function returns with the zone
and damage unchanged. -/
def assign_damage_to_zone : List Int → Nat → Except Unit (List Int × Nat)
  | zone, 0 => Except.ok (zone, 0)
  | zone, d + 1 =>
    if zone = [] then Except.ok (zone, d + 1)
    else Except.error ()

/-- Embedding of `RoundManager.handle_joker_attack` (webjadok.py lines
1369-1377): the total damage is assigned to the opponent's field zone, then
— the local `total_damage` being unchanged by the call — the same full
total is assigned to the opponent's wall when the total is positive, and
again to the opponent's battlement zone when the total is positive.  An
`AttributeError` raised by `assign_damage_to_zone` propagates (no caller on
this path handles it), short-circuiting the rest. -/
def handle_joker_attack (total : Nat) (fz wall bz : List Int) :
    Except Unit (List Int × List Int × List Int) :=
  match assign_damage_to_zone fz total with
  | Except.error e => Except.error e
  | Except.ok r1 =>
    match (if 0 < total then assign_damage_to_zone wall total
           else Except.ok (wall, total)) with
    | Except.error e => Except.error e
    | Except.ok r2 =>
      match (if 0 < total then assign_damage_to_zone bz total
             else Except.ok (bz, total)) with
      | Except.error e => Except.error e
      | Except.ok r3 => Except.ok (r1.1, r2.1, r3.1)

/-! ## Melee attacks (`RoundManager.perform_selected_melee_action`,
`RoundManager.select_melee_target`, `RoundManager.apply_damage_to_target`)

The state holds the selected attacker's action points and attack value and
the opponent's zones as lists of damage-point values; destroyed targets'
final damage values are appended to the opponent's discard list. -/

structure MeleeState where
  action_point : Int
  attack_value : Int
  opp_field_zone : List Int
  opp_wall : List Int
  opp_discard : List Int
deriving Repr, DecidableEq

/-- Embedding of `RoundManager.select_melee_target` (webjadok.py lines
1263-1288): available targets are the opponent's field zone, or the wall
when the field zone is empty; `none` when both are empty, otherwise a valid
index (the source re-prompts until the index is valid).  The boolean marks a
field-zone target. -/
def select_melee_target (choose : Nat) (fz wall : List Int) :
    Option (Bool × Nat) :=
  if fz = [] then
    if wall = [] then none else some (false, choose % wall.length)
  else some (true, choose % fz.length)

/-- Embedding of `RoundManager.apply_damage_to_target` (webjadok.py lines
1290-1311): the target loses the attacker's attack value; when its damage
points drop to `≤ 0` it is appended to the opponent's discard pile and
removed from the field zone if it is there (a wall target stays in the
wall).  Returns the updated field zone, wall and discard pile. -/
def apply_damage_to_target (attack_value : Int) (loc : Bool × Nat)
    (fz wall discard : List Int) : List Int × List Int × List Int :=
  match loc with
  | (true, i) =>
    let dp := fz.getD i 0 - attack_value
    if dp ≤ 0 then (fz.eraseIdx i, wall, discard ++ [dp])
    else (fz.set i dp, wall, discard)
  | (false, i) =>
    let dp := wall.getD i 0 - attack_value
    if dp ≤ 0 then (fz, wall.set i dp, discard ++ [dp])
    else (fz, wall.set i dp, discard)

/-- Embedding of `RoundManager.perform_selected_melee_action` (webjadok.py
lines 1248-1261): an attacker with action points `≤ 0` does nothing; when no
target is available the method returns before the action point is spent;
otherwise damage is applied and then one action point is deducted. -/
def perform_selected_melee_action (choose : Nat) (s : MeleeState) :
    MeleeState :=
  if s.action_point ≤ 0 then s
  else
    match select_melee_target choose s.opp_field_zone s.opp_wall with
    | none => s
    | some loc =>
      let r := apply_damage_to_target s.attack_value loc
                 s.opp_field_zone s.opp_wall s.opp_discard
      { s with opp_field_zone := r.1, opp_wall := r.2.1, opp_discard := r.2.2,
               action_point := s.action_point - 1 }

/-! ## Ranged damage-source requirement (`RoundManager.check_source_of_damage`,
`RoundManager.handle_ranged_actions`)

Hand and discard pile are lists of card names. -/

/-- Damage source required by a ranged character's sub-class, as matched in
`RoundManager.check_source_of_damage` (webjadok.py lines 1469-1476): Ammo
for the close sub-classes 2/3/Jack, Magic for 8/9/Queen, and no source — the
check fails outright — for any other sub-class. -/
def damage_source_for (sub_class : String) : Option String :=
  if sub_class = "2" ∨ sub_class = "3" ∨ sub_class = "Jack" then some "Ammo"
  else if sub_class = "8" ∨ sub_class = "9" ∨ sub_class = "Queen" then
    some "Magic"
  else none

/-- Embedding of `RoundManager.check_source_of_damage` (webjadok.py lines
1469-1483): when the required source card is in hand, the first such card
moves from the hand to the discard pile and the check succeeds; otherwise
nothing changes and the check fails. -/
def check_source_of_damage (sub_class : String) (hand discard : List String) :
    Bool × List String × List String :=
  match damage_source_for sub_class with
  | none => (false, hand, discard)
  | some src =>
    if src ∈ hand then (true, hand.erase src, discard ++ [src])
    else (false, hand, discard)

structure RangedState where
  action_point : Int
  hand : List String
  discard : List String
  opp_field_zone : List Int
deriving Repr, DecidableEq

/-- Embedding of the per-attack slice of `RoundManager.handle_ranged_actions`
(webjadok.py lines 1198-1207): `check_source_of_damage` runs first; only on
success does the attack itself execute (the success path,
`perform_selected_ranged_action`, is abstracted as the parameter `attack`
because its inner dispatch calls methods absent from the source); on failure
the attempt is merely reported and the state is left as the check left it. -/
def ranged_attempt (attack : RangedState → RangedState) (sub_class : String)
    (s : RangedState) : RangedState :=
  let r := check_source_of_damage sub_class s.hand s.discard
  if r.1 then attack { s with hand := r.2.1, discard := r.2.2 }
  else { s with hand := r.2.1, discard := r.2.2 }

/-! ## Deck construction and the initial deal (`Deck.__init__`,
`GameState.assign_initial_cards`)

Cards are modelled by their names; the catalog is the list loaded from the
CSV file (external to the core), and the shuffle provider is an arbitrary
permutation. -/

def jokerName : String := "Joker"

/-- Embedding of `Deck.__init__` (webjadok.py lines 950-955): the catalog
doubled, two Joker entries appended, then shuffled. -/
def deck_init (shuffle : List String → List String)
    (catalog : List String) : List String :=
  shuffle ((catalog ++ catalog) ++ [jokerName, jokerName])

/-- Embedding of `Deck.draw` (webjadok.py lines 990-999): pop from the end,
or report `none` on an empty deck. -/
def deck_draw (cards : List String) : Option String × List String :=
  match cards.getLast? with
  | none => (none, cards)
  | some c => (some c, cards.dropLast)

/-- Draw `n` cards in sequence (the list comprehension of
`GameState.assign_initial_cards`); empty draws contribute `none`. -/
def draw_n (cards : List String) : Nat → List (Option String) × List String
  | 0 => ([], cards)
  | n + 1 =>
    let r := deck_draw cards
    let rest := draw_n r.2 n
    (r.1 :: rest.1, rest.2)

/-- Embedding of `GameState.assign_initial_cards` for one player
(webjadok.py lines 1733-1742): draw 20 cards into the hand, move the first
10 to the wall and keep the last 10 in hand.  Returns (wall, hand,
remaining deck). -/
def assign_initial_cards (cards : List String) :
    List (Option String) × List (Option String) × List String :=
  let r := draw_n cards 20
  (r.1.take 10, r.1.drop 10, r.2)

/-! ## Scoring (`GameState.calculate_points`, `GameState.determine_winner`)

Cards carry the fields `calculate_points` reads: the name (the trap rank is
the name "7", per `Card.is_trap`), the character flag and the face
orientation. -/

structure CardC where
  name : String
  is_a_character : Bool
  is_face_down : Bool
deriving Repr, DecidableEq

/-- Embedding of `Card.is_trap` (webjadok.py lines 66-71). -/
def CardC.is_trap (c : CardC) : Bool := c.name = "7"

structure PlayerC where
  wall : List CardC
  field_zone : List CardC
deriving Repr, DecidableEq

/-- Embedding of `GameState.calculate_points` (webjadok.py lines 1744-1753):
2 points per character card in the field zone plus 2 points per trap card in
the wall. -/
def calculate_points (p : PlayerC) : Nat :=
  2 * (p.field_zone.filter (fun c => c.is_a_character)).length
    + 2 * (p.wall.filter (fun c => c.is_trap)).length

/-- Score as claim C9 words it: 2 per field-zone character plus 2 per
trap-rank card remaining face-down in the wall. -/
def spec_score (p : PlayerC) : Nat :=
  2 * (p.field_zone.filter (fun c => c.is_a_character)).length
    + 2 * (p.wall.filter (fun c => c.is_trap && c.is_face_down)).length

/-- Embedding of `GameState.determine_winner` (webjadok.py lines 1770-1777)
for the two players in order: Python's `max` over the points dict keeps the
first player unless the second's points are strictly greater.  Returns the
winning player's index (1 or 2) and points. -/
def determine_winner (p1 p2 : PlayerC) : Nat × Nat :=
  if calculate_points p2 > calculate_points p1 then (2, calculate_points p2)
  else (1, calculate_points p1)

/-! ## Helper lemmas -/

theorem take_damage_damage_points (c : CardDmg) (d : Int) :
    (take_damage c d).damage_points = c.damage_points - d := by
  simp only [take_damage]
  split <;> rfl

theorem take_damage_destroy_calls (c : CardDmg) (d : Int) :
    (take_damage c d).destroy_calls
      = c.destroy_calls + (if c.damage_points - d ≤ 0 then 1 else 0) := by
  simp only [take_damage]
  split <;> simp_all

theorem take_damage_seq_damage_points (c : CardDmg) (ds : List Int) :
    (take_damage_seq c ds).damage_points = c.damage_points - ds.sum := by
  induction ds generalizing c with
  | nil => simp [take_damage_seq]
  | cons a as ih =>
    simp only [take_damage_seq, List.foldl_cons] at ih ⊢
    rw [ih, take_damage_damage_points, List.sum_cons]
    ring

theorem take_damage_seq_destroy_calls (c : CardDmg) (ds : List Int) :
    (take_damage_seq c ds).destroy_calls
      = c.destroy_calls
        + (List.range ds.length).countP
            (fun i => decide (c.damage_points - ((ds.take (i + 1)).sum) ≤ 0)) := by
  induction ds generalizing c with
  | nil => simp [take_damage_seq]
  | cons a as ih =>
    simp only [take_damage_seq, List.foldl_cons] at ih ⊢
    rw [ih, take_damage_destroy_calls, take_damage_damage_points,
      List.length_cons, List.range_succ_eq_map, List.countP_cons,
      List.countP_map]
    have hcongr :
        (List.range as.length).countP
            ((fun i =>
              decide (c.damage_points - (((a :: as).take (i + 1)).sum) ≤ 0))
              ∘ Nat.succ)
          = (List.range as.length).countP
            (fun i =>
              decide (c.damage_points - a - ((as.take (i + 1)).sum) ≤ 0)) := by
      refine List.countP_congr fun i _ => ?_
      simp only [Function.comp, List.take_succ_cons, List.sum_cons,
        decide_eq_true_eq]
      constructor <;> intro hle <;> omega
    rw [hcongr]
    simp only [List.take_succ_cons, List.take_zero, List.sum_cons,
      List.sum_nil]
    have hiff : (c.damage_points - a ≤ 0) ↔ (c.damage_points - (a + 0) ≤ 0) := by
      omega
    rcases Classical.em (c.damage_points - a ≤ 0) with hc | hc
    · rw [if_pos hc, if_pos (by simpa using hiff.mp hc)]
      omega
    · rw [if_neg hc, if_neg (by simpa using fun hco => hc (hiff.mpr hco))]
      omega

/-! ## Claim theorems -/

/-- C1 counterexample: a card with 1 damage point hit by 2 damage and then
by 1 more ends with damage points −2 — below 0, so damage is not clamped —
and its destruction routine has run twice, once per application, not exactly
once at the first transition. -/
theorem C1_counterexample :
    (take_damage_seq ⟨1, 0⟩ [2, 1]).damage_points < 0
      ∧ (take_damage_seq ⟨1, 0⟩ [2, 1]).destroy_calls = 2 := by
  decide

/-- C1 amended: `take_damage` subtracts without clamping, so over any
sequence of damage applications the card's damage points equal the initial
value minus the total damage (and in particular go negative when the total
exceeds the initial value); the destruction routine runs at every
application whose result is ≤ 0 — one invocation per qualifying
application, not exactly once. -/
theorem C1_take_damage_unclamped (c : CardDmg) (ds : List Int) (d : Int) :
    (take_damage_seq c ds).damage_points = c.damage_points - ds.sum
      ∧ (take_damage c d).destroy_calls
          = c.destroy_calls + (if c.damage_points - d ≤ 0 then 1 else 0)
      ∧ (take_damage_seq c ds).destroy_calls
          = c.destroy_calls
            + (List.range ds.length).countP
                (fun i => decide (c.damage_points - ((ds.take (i + 1)).sum) ≤ 0)) :=
  ⟨take_damage_seq_damage_points c ds, take_damage_destroy_calls c d,
    take_damage_seq_destroy_calls c ds⟩

/-- C2 counterexample: destroying a card that sits in the battlement zone
appends it to the discard pile without removing it from the battlement zone,
so afterwards the card is referenced by two containers. -/
theorem C2_counterexample :
    (destroy_card ⟨[], [], [⟨7, true⟩], [], []⟩ ⟨7, true⟩).battlement_zone
        = [⟨7, true⟩]
      ∧ (destroy_card ⟨[], [], [⟨7, true⟩], [], []⟩ ⟨7, true⟩).refCount ⟨7, true⟩
        = 2 := by
  decide

/-- C2 amended: `destroy_card` appends the card to the discard pile and
removes it only from the field zone; the single-reference property is
preserved only when the destroyed card's unique reference was in the field
zone — a card destroyed while referenced from the hand, wall or battlement
zone remains there and is duplicated into the discard pile. -/
theorem C2_destroy_card_field_zone_only (p : PlayerZones) (c : CardZ)
    (hf : c ∈ p.field_zone) (h1 : p.refCount c = 1) :
    (destroy_card p c).refCount c = 1
      ∧ (destroy_card p c).discard_pile = p.discard_pile ++ [c] := by
  have hfpos : 0 < p.field_zone.count c := List.count_pos_iff.mpr hf
  constructor
  · simp only [PlayerZones.refCount, destroy_card] at h1 ⊢
    rw [if_pos hf]
    simp only [List.count_append, List.count_erase_self, List.count_cons_self,
      List.count_nil]
    omega
  · simp [destroy_card]

theorem C2_destroy_card_field_zone_only_witness :
    (destroy_card ⟨[], [], [], [⟨3, false⟩], []⟩ ⟨3, false⟩).refCount ⟨3, false⟩
        = 1
      ∧ (destroy_card ⟨[], [], [], [⟨3, false⟩], []⟩ ⟨3, false⟩).discard_pile
        = [] ++ [⟨3, false⟩] :=
  C2_destroy_card_field_zone_only ⟨[], [], [], [⟨3, false⟩], []⟩ ⟨3, false⟩
    (by decide) (by decide)

/-- Placement of a card onto the ASP appends it
(`RoundManager.handle_asp_actions`, webjadok.py line 1086). -/
def place_to_asp (asp : List α) (x : α) : List α := asp ++ [x]

theorem foldl_place_to_asp (l acc : List α) :
    l.foldl place_to_asp acc = acc ++ l := by
  induction l generalizing acc with
  | nil => simp
  | cons a as ih => simp [place_to_asp, ih]

theorem resolve_asp_loop_eq (asp : List α) :
    ∀ acc, resolve_asp_loop asp acc = (acc.reverse ++ asp.reverse, ([] : List α)) := by
  induction asp using List.reverseRecOn with
  | nil =>
    intro acc
    rw [resolve_asp_loop]
    simp
  | append_singleton xs x ih =>
    intro acc
    rw [resolve_asp_loop]
    split
    next hl =>
      rw [List.getLast?_concat] at hl
      cases hl
    next a hl =>
      rw [List.getLast?_concat] at hl
      cases hl
      rw [List.dropLast_concat, ih]
      simp

/-- C3: resolving the ASP after any sequence of placements (each appended in
order) processes the committed pairs in exactly the reverse of placement
order, and the pile is empty when resolution finishes. -/
theorem C3_asp_lifo (placements : List α) :
    resolve_asp (placements.foldl place_to_asp [])
      = (placements.reverse, ([] : List α)) := by
  rw [foldl_place_to_asp]
  simp only [List.nil_append]
  rw [resolve_asp, resolve_asp_loop_eq]
  simp

theorem calculate_joker_damage_total (fz : List Int) (ans : List Bool) :
    (calculate_joker_damage fz ans).2 = 2 + (ans.take fz.length).count true := by
  induction fz generalizing ans with
  | nil => simp [calculate_joker_damage]
  | cons c cs ih =>
    cases ans with
    | nil => simp [calculate_joker_damage, ih]
    | cons a as =>
      cases a with
      | false =>
        simp only [calculate_joker_damage, List.headD_cons, List.tail_cons,
          if_neg (Bool.false_ne_true), ih, List.length_cons,
          List.take_succ_cons, List.count_cons]
        simp
      | true =>
        simp only [calculate_joker_damage, List.headD_cons, List.tail_cons,
          if_pos rfl, ih, List.length_cons, List.take_succ_cons,
          List.count_cons]
        simp
        omega

/-- C4: the Joker total is base 2 plus 1 per yes answer over the acting
player's field-zone cards, as the claim says, but applying that total is
impossible: `assign_damage_to_zone` raises `AttributeError` (the
`Except.error` branch) the moment the remaining damage is positive and the
targeted zone is non-empty, before a single damage point lands.  At the
failing input — total damage 2 against one field-zone card at 1 damage
point — the Joker attack raises instead of performing the claimed
field-zone-first application, and in general it returns normally (with
every zone untouched) exactly when the opponent's field zone, wall and
battlement zone are all empty. -/
theorem C4_joker_attack_raises (total : Nat) (fz wall bz afz : List Int)
    (ans : List Bool) :
    handle_joker_attack 2 [1] [1, 1] [1] = Except.error ()
      ∧ (calculate_joker_damage afz ans).2 = 2 + (ans.take afz.length).count true
      ∧ assign_damage_to_zone fz (total + 1)
          = (if fz = [] then Except.ok (fz, total + 1) else Except.error ())
      ∧ (handle_joker_attack (total + 1) fz wall bz = Except.ok (fz, wall, bz)
          ↔ fz = [] ∧ wall = [] ∧ bz = []) := by
  refine ⟨rfl, calculate_joker_damage_total afz ans, rfl, ?_⟩
  by_cases hf : fz = [] <;> by_cases hw : wall = [] <;> by_cases hb : bz = [] <;>
    simp [handle_joker_attack, assign_damage_to_zone, hf, hw, hb]

/-- C5: placing a card into the wall appends it face-down when the wall has
fewer than 14 cards, redirects it to the discard pile when the wall is full
(a defined side effect, not an error — the operation is total), and in
particular a wall at or under the 14-card capacity stays at or under it. -/
theorem C5_wall_capacity (p : PlayerZones) (card : CardZ) :
    (p.wall.length < 14 →
        place_card_in_wall p card
          = { p with wall := p.wall ++ [{ card with is_face_down := true }] })
      ∧ (14 ≤ p.wall.length →
        place_card_in_wall p card
          = { p with discard_pile := p.discard_pile ++ [card] })
      ∧ (p.wall.length ≤ 14 →
        (place_card_in_wall p card).wall.length ≤ 14) := by
  refine ⟨fun h => ?_, fun h => ?_, fun h => ?_⟩
  · rw [place_card_in_wall, if_pos h]
  · rw [place_card_in_wall, if_neg (by omega)]
  · by_cases hlt : p.wall.length < 14
    · rw [place_card_in_wall, if_pos hlt]
      simp only [List.length_append, List.length_cons, List.length_nil]
      omega
    · rw [place_card_in_wall, if_neg hlt]
      exact h

theorem C5_wall_capacity_witness :
    place_card_in_wall ⟨[], [], [], [], []⟩ ⟨1, false⟩
        = { hand := [], wall := [] ++ [⟨1, true⟩], battlement_zone := [],
            field_zone := [], discard_pile := [] }
      ∧ place_card_in_wall ⟨[], List.replicate 14 ⟨0, true⟩, [], [], []⟩ ⟨1, false⟩
        = { hand := [], wall := List.replicate 14 ⟨0, true⟩,
            battlement_zone := [], field_zone := [],
            discard_pile := [] ++ [⟨1, false⟩] }
      ∧ (place_card_in_wall ⟨[], [], [], [], []⟩ ⟨1, false⟩).wall.length ≤ 14 :=
  ⟨(C5_wall_capacity ⟨[], [], [], [], []⟩ ⟨1, false⟩).1 (by decide),
   (C5_wall_capacity ⟨[], List.replicate 14 ⟨0, true⟩, [], [], []⟩ ⟨1, false⟩).2.1
     (by decide),
   (C5_wall_capacity ⟨[], [], [], [], []⟩ ⟨1, false⟩).2.2 (by decide)⟩

/-- C6 counterexample: a melee attacker with 1 action point facing an
opponent with empty field zone and empty wall finds no valid target and the
method returns with the action point still at 1, not deducted — contrary to
the claim that exactly one point is spent even when no valid target is
available. -/
theorem C6_counterexample :
    (perform_selected_melee_action 0 ⟨1, 3, [], [], []⟩).action_point = 1
      ∧ (perform_selected_melee_action 0 ⟨1, 3, [], [], []⟩).action_point
          ≠ 1 - 1 := by
  decide

/-- C6 amended: a melee attacker with action points ≤ 0 causes no mutation;
when the opponent has no card in the field zone or wall the attempt also
causes no mutation and, in particular, spends no action point; exactly one
action point is deducted whenever a target exists, regardless of the
attack's outcome. -/
theorem C6_melee_action_point (choose : Nat) (s : MeleeState) :
    (s.action_point ≤ 0 → perform_selected_melee_action choose s = s)
      ∧ (s.opp_field_zone = [] → s.opp_wall = [] →
          perform_selected_melee_action choose s = s)
      ∧ (0 < s.action_point → s.opp_field_zone ≠ [] ∨ s.opp_wall ≠ [] →
          (perform_selected_melee_action choose s).action_point
            = s.action_point - 1) := by
  refine ⟨fun h => ?_, fun hf hw => ?_, fun hap htar => ?_⟩
  · rw [perform_selected_melee_action, if_pos h]
  · rw [perform_selected_melee_action]
    split
    · rfl
    · simp [select_melee_target, hf, hw]
  · rw [perform_selected_melee_action, if_neg (by omega)]
    rcases hfz : s.opp_field_zone with _ | ⟨z, zs⟩
    · rcases htar with hfne | hwne
      · exact absurd hfz hfne
      · simp [select_melee_target, hfz, hwne, apply_damage_to_target]
    · simp [select_melee_target, hfz, apply_damage_to_target]

theorem C6_melee_action_point_witness :
    (perform_selected_melee_action 0 ⟨1, 3, [2], [], []⟩).action_point = 1 - 1 :=
  (C6_melee_action_point 0 ⟨1, 3, [2], [], []⟩).2.2 (by decide)
    (Or.inl (by decide))

/-- C7: a ranged attack by a character whose player holds no card matching
the required damage source (Ammo for the 2/3/Jack sub-classes, Magic
otherwise — sub-classes outside the table are always blocked) stops at the
source check: the whole state is unchanged, so no damage is applied, no
action point is spent, and no card leaves the hand. -/
theorem C7_ranged_blocked (attack : RangedState → RangedState)
    (sub_class : String) (s : RangedState)
    (h : ∀ src, damage_source_for sub_class = some src → src ∉ s.hand) :
    ranged_attempt attack sub_class s = s := by
  rw [ranged_attempt]
  rcases hsrc : damage_source_for sub_class with _ | src
  · simp [check_source_of_damage, hsrc]
  · have hns : src ∉ s.hand := h src hsrc
    simp [check_source_of_damage, hsrc, hns]

theorem C7_ranged_blocked_witness :
    ranged_attempt (fun s => { s with action_point := s.action_point - 1 })
        "Queen" ⟨1, ["Ammo"], [], [3]⟩ = ⟨1, ["Ammo"], [], [3]⟩ :=
  C7_ranged_blocked _ "Queen" ⟨1, ["Ammo"], [], [3]⟩ (by
    intro src hsrc
    rw [show damage_source_for "Queen" = some "Magic" from rfl] at hsrc
    simp only [Option.some.injEq] at hsrc
    subst hsrc
    decide)

theorem draw_n_fst_length (n : Nat) :
    ∀ cards : List String, (draw_n cards n).1.length = n := by
  induction n with
  | zero => intro cards; simp [draw_n]
  | succ k ih => intro cards; simp [draw_n, ih]

theorem draw_n_snd_length (n : Nat) :
    ∀ cards : List String, (draw_n cards n).2.length = cards.length - n := by
  induction n with
  | zero => intro cards; simp [draw_n]
  | succ k ih =>
    intro cards
    rcases hc : cards.getLast? with _ | c
    · have hnil : cards = [] := List.getLast?_eq_none_iff.mp hc
      subst hnil
      simp [draw_n, deck_draw, ih]
    · simp only [draw_n, deck_draw, hc]
      rw [ih]
      simp only [List.length_dropLast]
      omega

/-- C8: a fresh deck is a permutation of the doubled catalog plus two
Jokers, so for a 52-card duplicate-free catalog it holds 106 cards — two
copies of every catalog card and two Jokers — and after the initial deal of
20 cards (the first 10 drawn going to the wall, the next 10 kept in hand)
the deck holds exactly 86 cards. -/
theorem C8_deck_and_deal (shuffle : List String → List String)
    (catalog : List String)
    (hperm : (deck_init shuffle catalog).Perm
        ((catalog ++ catalog) ++ [jokerName, jokerName]))
    (hlen : catalog.length = 52) (hnodup : catalog.Nodup)
    (hjok : jokerName ∉ catalog) :
    (deck_init shuffle catalog).length = 106
      ∧ (deck_init shuffle catalog).count jokerName = 2
      ∧ (∀ c ∈ catalog, (deck_init shuffle catalog).count c = 2)
      ∧ (assign_initial_cards (deck_init shuffle catalog)).1.length = 10
      ∧ (assign_initial_cards (deck_init shuffle catalog)).2.1.length = 10
      ∧ (assign_initial_cards (deck_init shuffle catalog)).2.2.length = 86 := by
  have hdlen : (deck_init shuffle catalog).length = 106 := by
    rw [hperm.length_eq]
    simp [hlen]
  refine ⟨hdlen, ?_, ?_, ?_, ?_, ?_⟩
  · rw [hperm.count_eq]
    have h0 : catalog.count jokerName = 0 := List.count_eq_zero.mpr hjok
    simp [List.count_append, h0]
  · intro c hc
    rw [hperm.count_eq]
    have h1 : catalog.count c = 1 := List.count_eq_one_of_mem hnodup hc
    have hne : c ≠ jokerName := fun he => hjok (he ▸ hc)
    simp [List.count_append, h1, List.count_cons, hne]
  · simp only [assign_initial_cards, List.length_take, draw_n_fst_length]
    decide
  · simp only [assign_initial_cards, List.length_drop, draw_n_fst_length]
  · simp only [assign_initial_cards, draw_n_snd_length, hdlen]

theorem C8_deck_and_deal_witness :
    (deck_init id ((List.range 52).map toString)).length = 106
      ∧ (deck_init id ((List.range 52).map toString)).count jokerName = 2
      ∧ (deck_init id ((List.range 52).map toString)).count "0" = 2
      ∧ (assign_initial_cards
          (deck_init id ((List.range 52).map toString))).2.2.length = 86 := by
  have h := C8_deck_and_deal id ((List.range 52).map toString)
    (List.Perm.refl _) (by simp) (by decide) (by decide)
  exact ⟨h.1, h.2.1, h.2.2.1 "0" (by decide), h.2.2.2.2.2⟩

/-- C9: with every wall card face-down (which is how every operation of the
source leaves wall cards), `calculate_points` equals the claimed score — 2
per character in the player's own field zone plus 2 per trap-rank card
remaining face-down in the player's own wall — and `determine_winner`
returns the player with the strictly higher score together with that
score. -/
theorem C9_winner_by_score (p1 p2 : PlayerC)
    (h1 : ∀ c ∈ p1.wall, c.is_face_down = true)
    (h2 : ∀ c ∈ p2.wall, c.is_face_down = true) :
    calculate_points p1 = spec_score p1
      ∧ calculate_points p2 = spec_score p2
      ∧ (spec_score p2 < spec_score p1 →
          determine_winner p1 p2 = (1, spec_score p1))
      ∧ (spec_score p1 < spec_score p2 →
          determine_winner p1 p2 = (2, spec_score p2)) := by
  have key : ∀ p : PlayerC, (∀ c ∈ p.wall, c.is_face_down = true) →
      calculate_points p = spec_score p := by
    intro p hp
    have hfil : p.wall.filter (fun c => c.is_trap)
        = p.wall.filter (fun c => c.is_trap && c.is_face_down) := by
      refine List.filter_congr fun c hc => ?_
      rw [hp c hc, Bool.and_true]
    rw [calculate_points, spec_score, hfil]
  refine ⟨key p1 h1, key p2 h2, fun hgt => ?_, fun hgt => ?_⟩
  · rw [determine_winner,
      if_neg (by rw [key p1 h1, key p2 h2]; omega), key p1 h1]
  · rw [determine_winner,
      if_pos (by rw [key p1 h1, key p2 h2]; omega), key p2 h2]

theorem C9_winner_by_score_witness :
    calculate_points ⟨[⟨"7", false, true⟩], []⟩
        = spec_score ⟨[⟨"7", false, true⟩], []⟩
      ∧ determine_winner ⟨[⟨"7", false, true⟩], []⟩ ⟨[], []⟩
        = (1, spec_score ⟨[⟨"7", false, true⟩], []⟩) := by
  have h := C9_winner_by_score ⟨[⟨"7", false, true⟩], []⟩ ⟨[], []⟩
    (by decide) (by decide)
  exact ⟨h.1, h.2.2.1 (by decide)⟩

/-- C10: discarding a card that is in the hand removes exactly that one
occurrence from the hand (the count of that card drops by one, every other
card's count is untouched) and appends it to the discard pile, reporting
success; discarding a card not in the hand reports failure and leaves the
whole state — hand, discard pile and every other zone — unchanged, and the
operation is total (never raises). -/
theorem C10_discard_card (p : PlayerZones) (card : CardZ) :
    (card ∈ p.hand →
        discard_card p card
          = ({ p with hand := p.hand.erase card,
                      discard_pile := p.discard_pile ++ [card] }, true)
          ∧ (discard_card p card).1.hand.length + 1 = p.hand.length
          ∧ (discard_card p card).1.hand.count card + 1 = p.hand.count card
          ∧ ∀ c, c ≠ card →
              (discard_card p card).1.hand.count c = p.hand.count c)
      ∧ (card ∉ p.hand → discard_card p card = (p, false)) := by
  constructor
  · intro hmem
    have hpos : 0 < p.hand.count card := List.count_pos_iff.mpr hmem
    have hlenpos : 0 < p.hand.length :=
      List.length_pos.mpr (List.ne_nil_of_mem hmem)
    refine ⟨by rw [discard_card, if_pos hmem], ?_, ?_, ?_⟩
    · simp only [discard_card, if_pos hmem]
      rw [List.length_erase_of_mem hmem]
      omega
    · simp only [discard_card, if_pos hmem]
      rw [List.count_erase_self]
      omega
    · intro c hne
      simp only [discard_card, if_pos hmem]
      rw [List.count_erase_of_ne hne]
  · intro hmem
    rw [discard_card, if_neg hmem]

theorem C10_discard_card_witness :
    discard_card ⟨[⟨1, false⟩, ⟨2, false⟩], [], [], [], []⟩ ⟨2, false⟩
        = ({ hand := [⟨1, false⟩], wall := [], battlement_zone := [],
             field_zone := [], discard_pile := [⟨2, false⟩] }, true)
      ∧ discard_card ⟨[⟨1, false⟩], [], [], [], []⟩ ⟨5, false⟩
        = (⟨[⟨1, false⟩], [], [], [], []⟩, false) :=
  ⟨((C10_discard_card ⟨[⟨1, false⟩, ⟨2, false⟩], [], [], [], []⟩
      ⟨2, false⟩).1 (by decide)).1,
   (C10_discard_card ⟨[⟨1, false⟩], [], [], [], []⟩ ⟨5, false⟩).2 (by decide)⟩

end JaDoK
